import Mathlib

/-!
Shallow embedding of the command-recording, binding-state, descriptor-set,
transfer, queue-submission and memory-binding logic of the `ember` Vulkan
safety layer (Rust), together with proofs about the behaviour of the
embedded operations.

Handles, devices, semaphores and samplers are identified by natural
numbers; `u32`/`u64` quantities are embedded as `Nat`, with wrapping or
checked arithmetic made explicit (`% 2^64`, comparisons against `2^64`)
exactly where the source uses `overflowing_add` / `checked_mul`.
-/

namespace Ember

/-- Error kinds of `src/error.rs` (the `Error` enum): the typed conditions
this layer reports to callers. -/
inductive Error where
  | invalidArgument
  | invalidState
  | outOfBounds
  | synchronizationError
  | limitExceeded
  deriving DecidableEq, Repr

/-- `Result<T>` of `src/error.rs`. -/
abbrev Result (α : Type) := Except Error α

/-- Outcome of a Rust function that can `panic!` instead of returning:
`panicked msg` models a Rust panic with the given message. -/
inductive PanicOr (α : Type) where
  | panicked (msg : String)
  | ok (a : α)
  deriving DecidableEq, Repr

/-- Descriptor types used by the layer (the `DescriptorType` constants of
the source; only identity of the constants matters here). -/
inductive DescriptorType where
  | uniformBuffer
  | storageBuffer
  | uniformBufferDynamic
  | storageBufferDynamic
  | sampler
  | combinedImageSampler
  | sampledImage
  | storageImage
  | inputAttachment
  deriving DecidableEq, Repr

/-- `DescriptorSetLayoutBinding` of `src/descriptor_set.rs`: samplers are
identified by handle, stage flags by their bitmask value. -/
structure DescriptorSetLayoutBinding where
  descriptor_type : DescriptorType
  descriptor_count : Nat
  stage_flags : Nat
  immutable_samplers : List Nat
  deriving DecidableEq, Repr

instance : Inhabited DescriptorSetLayoutBinding :=
  ⟨{ descriptor_type := DescriptorType.uniformBuffer, descriptor_count := 0,
     stage_flags := 0, immutable_samplers := [] }⟩

/-- `DescriptorSetLayoutInner` of `src/descriptor_set.rs`: native handle,
binding sequence and owning device. -/
structure DescriptorSetLayout where
  handle : Nat
  bindings : List DescriptorSetLayoutBinding
  device : Nat
  deriving DecidableEq, Repr

/-- The custom `PartialEq for DescriptorSetLayoutInner`
(`src/descriptor_set.rs:131-136`): layouts are compared by binding
sequence and device, the native handle is ignored ("Compatible descriptor
sets layouts are equal"). -/
def layoutEq (a b : DescriptorSetLayout) : Bool :=
  a.bindings == b.bindings && a.device == b.device

/-- Elementwise comparison of two layout sequences with `layoutEq`, the
embedding of `Iterator::eq` over `&DescriptorSetLayout` items (equal
lengths and pointwise layout equality). -/
def layoutSeqEq : List DescriptorSetLayout → List DescriptorSetLayout → Bool
  | [], [] => true
  | a :: as_, b :: bs => layoutEq a b && layoutSeqEq as_ bs
  | _, _ => false

/-- `DescriptorSetLayout::num_dynamic_offsets` (`src/descriptor_set.rs`):
total `descriptor_count` over dynamic uniform/storage buffer bindings. -/
def DescriptorSetLayout.numDynamicOffsets (l : DescriptorSetLayout) : Nat :=
  (l.bindings.filter fun b =>
    b.descriptor_type == DescriptorType.uniformBufferDynamic
      || b.descriptor_type == DescriptorType.storageBufferDynamic).foldl
    (fun acc b => acc + b.descriptor_count) 0

/-- `DescriptorSet` of `src/descriptor_set.rs`: native handle, layout, and
the per-binding per-element "written" table. -/
structure DescriptorSet where
  handle : Nat
  layout : DescriptorSetLayout
  inited : List (List Bool)
  deriving DecidableEq, Repr

/-- The success path of `DescriptorSet::new` (`src/descriptor_set.rs:268-295`):
the written table has one `bool` slice per declared binding, each of length
`descriptor_count`, all initially `false` (`alloc_slice_fill_default`). -/
def DescriptorSet.new (handle : Nat) (layout : DescriptorSetLayout) :
    DescriptorSet :=
  { handle := handle
    layout := layout
    inited := layout.bindings.map fun b =>
      List.replicate b.descriptor_count false }

/-- `DescriptorSet::is_initialized` (`src/descriptor_set.rs:309-313`):
every member of every binding has been written. -/
def DescriptorSet.isInitialized (s : DescriptorSet) : Bool :=
  s.inited.all fun rs => rs.all id

/-- Pipeline layout. Modelled from the spec: `src/pipeline.rs` is not
present in the sources; per the spec a pipeline layout carries "the
descriptor-set-layout signature it expects", exposed by the
`PipelineLayout::layouts()` accessor used by `bind.rs` and `draw.rs`. -/
structure PipelineLayout where
  layouts : List DescriptorSetLayout
  deriving DecidableEq, Repr

/-- Pipeline. Modelled from the spec: `src/pipeline.rs` is not present in
the sources. It carries its `PipelineLayout`, an optional render-pass
association (`Pipeline::render_pass()`, driving the bind point chosen by
`bind_pipeline`), and the opaque render-pass/subpass compatibility
predicate `Pipeline::is_compatible_with` consulted by draw calls. -/
structure Pipeline where
  layout : PipelineLayout
  renderPass : Option Nat
  compatible : Nat → Nat → Bool

/-- Per-bind-point binding state (`Bindings` in `src/command_buffer.rs`):
the tracked layout sequence, the parallel "initialized" table and the
currently bound pipeline. -/
structure Bindings where
  layout : List DescriptorSetLayout
  inited : List Bool
  pipeline : Option Pipeline

/-- `Bindings::new` (`src/command_buffer.rs:326-334`). -/
def Bindings.empty : Bindings := { layout := [], inited := [], pipeline := none }

/-- `Vec::resize(new_len, value)`: truncate to `new_len` if shorter,
otherwise pad with `value`. -/
def vecResize {α : Type} (v : List α) (newLen : Nat) (x : α) : List α :=
  if newLen ≤ v.length then v.take newLen
  else v ++ List.replicate (newLen - v.length) x

/-- `slice[b..e].fill(true)` on a boolean vector, as used by
`Bindings::bind_descriptor_sets`. -/
def fillTrue (v : List Bool) (b e : Nat) : List Bool :=
  v.mapIdx fun i x => if b ≤ i && i < e then true else x

/-- The divergence index computed by `Bindings::bind_descriptor_sets`
(`src/command_buffer/bind.rs:211-216`): position of the first pointwise
layout mismatch between the tracked sequence and the new sequence, or the
length of the shorter one if no mismatch exists. -/
def divergeIdx (tracked newSeq : List DescriptorSetLayout) : Nat :=
  (((tracked.zip newSeq).findIdx? fun p => !(layoutEq p.1 p.2)).getD
    (min tracked.length newSeq.length))

/-- `Bindings::bind_descriptor_sets` (`src/command_buffer/bind.rs:205-229`):
the longest-common-prefix update of the tracked layout sequence and the
initialized table after binding `sets` descriptor sets at index `bg`
against pipeline layout `layout`. -/
def Bindings.bindDescriptorSets (bnd : Bindings) (layout : PipelineLayout)
    (bg sets : Nat) : Bindings :=
  let e := bg + sets
  let layouts := layout.layouts.take e
  let i := divergeIdx bnd.layout layouts
  if i < e then
    { bnd with
      layout := layouts
      inited := vecResize (vecResize (vecResize bnd.inited i false) bg false)
        e true }
  else
    { bnd with
      inited := fillTrue (vecResize bnd.inited (max bnd.inited.length e) false)
        bg e }

/-- `Bindings::check` (`src/command_buffer/draw.rs:73-90`): a draw or
dispatch is legal only when a pipeline is bound, the tracked layout
sequence covers the pipeline layout's sequence as a pointwise-equal
prefix, and the leading run of `true` entries of the initialized table
covers the pipeline layout's sequence. -/
def Bindings.check (b : Bindings) : Result Unit :=
  match b.pipeline with
  | some p =>
    if b.layout.length ≥ p.layout.layouts.length
        && layoutSeqEq (b.layout.take p.layout.layouts.length)
          p.layout.layouts
        && (b.inited.takeWhile id).length ≥ p.layout.layouts.length then
      Except.ok ()
    else
      Except.error Error.invalidState
  | none => Except.error Error.invalidState

/-- `Bindings::check_render_pass` (`src/command_buffer/draw.rs:91-98`). -/
def Bindings.checkRenderPass (b : Bindings) (pass subpass : Nat) :
    Result Unit :=
  match b.pipeline with
  | some p =>
    if p.compatible pass subpass then Except.ok ()
    else Except.error Error.invalidState
  | none => Except.error Error.invalidState

/-- `u64::MAX`. -/
def U64_MAX : Nat := 2 ^ 64 - 1

/-- The `INDIRECT_BUFFER` bit of `BufferUsageFlags` (value as in the
native API; only bit identity matters to the embedded checks). -/
def INDIRECT_BUFFER : Nat := 256

/-- A buffer with memory (`Buffer` of `src/buffer.rs`): native handle,
byte length and usage bitmask. -/
structure Buffer where
  handle : Nat
  len : Nat
  usage : Nat
  deriving DecidableEq, Repr

/-- `Buffer::bounds_check` (`src/buffer.rs:117-119`):
`self.len() >= offset && self.len() - offset >= len` in `u64`
(the subtraction is guarded, so `Nat` subtraction is exact here). -/
def Buffer.boundsCheck (b : Buffer) (offset len : Nat) : Bool :=
  b.len ≥ offset && b.len - offset ≥ len

/-- Bind points (`PipelineBindPoint`). -/
inductive BindPoint where
  | graphics
  | compute
  deriving DecidableEq, Repr

/-- The native commands recorded by the embedded operations; recording one
models issuing the corresponding `cmd_*` call on the native buffer. -/
inductive NativeCmd where
  | bindDescriptorSets (bp : BindPoint) (firstSet : Nat)
      (setHandles : List Nat) (dynamicOffsets : List Nat)
  | draw (vertexCount instanceCount firstVertex firstInstance : Nat)
  | drawIndirect (bufHandle offset drawCount stride : Nat)
  | drawIndexed (indexCount instanceCount firstIndex : Nat)
      (vertexOffset : Int) (firstInstance : Nat)
  | drawIndexedIndirect (bufHandle offset drawCount stride : Nat)
  | dispatch (x y z : Nat)
  | dispatchIndirect (bufHandle offset : Nat)
  | fillBuffer (bufHandle offset size data : Nat)
  | copyBuffer (srcHandle dstHandle : Nat)
      (regions : List (Nat × Nat × Nat))
  deriving DecidableEq, Repr

/-- `CommandRecording` (`src/command_buffer.rs`), restricted to the state
the validated commands consult and mutate: the two per-bind-point binding
states and the list of native commands recorded so far. -/
structure CommandRecording where
  graphics : Bindings
  compute : Bindings
  cmds : List NativeCmd

/-- `CommandRecording::bind_pipeline` (`src/command_buffer/bind.rs:42-58`):
writes the graphics or compute bind point depending on whether the
pipeline declares a render-pass association. -/
def CommandRecording.bindPipeline (rec : CommandRecording) (p : Pipeline) :
    CommandRecording :=
  if p.renderPass.isSome then
    { rec with graphics := { rec.graphics with pipeline := some p } }
  else
    { rec with compute := { rec.compute with pipeline := some p } }

/-- `CommandRecording::bind_descriptor_sets`
(`src/command_buffer/bind.rs:243-293`): validates layout compatibility
(structural, starting at `first_set`), the dynamic-offset count, and that
every set is initialized; then calls `Bindings::bind_descriptor_sets` on
the selected bind point and records the native bind. That inner call
slices `&layout.layouts()[0..first_set + sets.len()]` (`bind.rs:210`),
which `panic!`s when the range end exceeds the pipeline layout's set
count; since the inner call is this function's only caller of the slice,
that panic is guarded here by exactly its condition (the validated
embedding `Bindings.bindDescriptorSets` itself truncates with `take` and
is only consulted below the guard). -/
def CommandRecording.bindDescriptorSets (rec : CommandRecording)
    (bp : BindPoint) (layout : PipelineLayout) (firstSet : Nat)
    (sets : List DescriptorSet) (dynamicOffsets : List Nat) :
    PanicOr (Result CommandRecording) :=
  if !layoutSeqEq (sets.map (·.layout))
        ((layout.layouts.drop firstSet).take sets.length)
      || (sets.map fun s => s.layout.numDynamicOffsets).sum
          ≠ dynamicOffsets.length
      || sets.any fun s => !s.isInitialized then
    PanicOr.ok (Except.error Error.invalidArgument)
  else if layout.layouts.length < firstSet + sets.length then
    PanicOr.panicked "range end index out of range for slice"
  else
    let rec2 :=
      if bp = BindPoint.graphics then
        { rec with graphics :=
            rec.graphics.bindDescriptorSets layout firstSet sets.length }
      else
        { rec with compute :=
            rec.compute.bindDescriptorSets layout firstSet sets.length }
    PanicOr.ok (Except.ok { rec2 with cmds := rec2.cmds ++
      [NativeCmd.bindDescriptorSets bp firstSet (sets.map (·.handle))
        dynamicOffsets] })

/-- `bounds_check_n` (`src/command_buffer/draw.rs:225-240`): the indirect
draw stride/bounds rule. For fewer than two records the stride is forced
to the record size; a stride below the record size or a 4-misaligned
offset is an invalid argument; `count * stride` is a `u64` checked
multiplication whose overflow is out-of-bounds; the resulting range must
lie inside the buffer. -/
def boundsCheckN (count size stride : Nat) (buf : Buffer) (offset : Nat) :
    Result Unit :=
  let stride := if count < 2 then size else stride
  if stride < size || offset &&& 3 ≠ 0 then
    Except.error Error.invalidArgument
  else if count * stride > U64_MAX then
    Except.error Error.outOfBounds
  else if !buf.boundsCheck offset (count * stride) then
    Except.error Error.outOfBounds
  else
    Except.ok ()

/-- `CommandRecording::draw` (`src/command_buffer/draw.rs:243-258`). -/
def CommandRecording.draw (rec : CommandRecording)
    (vertexCount instanceCount firstVertex firstInstance : Nat) :
    Result CommandRecording := do
  rec.graphics.check
  pure { rec with cmds := rec.cmds ++
    [NativeCmd.draw vertexCount instanceCount firstVertex firstInstance] }

/-- `CommandRecording::draw_indirect` (`src/command_buffer/draw.rs:259-278`):
usage check, then `bounds_check_n` with record size 16, then the binding
state check. -/
def CommandRecording.drawIndirect (rec : CommandRecording) (buffer : Buffer)
    (offset drawCount stride : Nat) : Result CommandRecording := do
  if buffer.usage &&& INDIRECT_BUFFER = 0 then
    throw Error.invalidArgument
  boundsCheckN drawCount 16 stride buffer offset
  rec.graphics.check
  pure { rec with cmds := rec.cmds ++
    [NativeCmd.drawIndirect buffer.handle offset drawCount stride] }

/-- `CommandRecording::draw_indexed` (`src/command_buffer/draw.rs:279-295`). -/
def CommandRecording.drawIndexed (rec : CommandRecording)
    (indexCount instanceCount firstIndex : Nat) (vertexOffset : Int)
    (firstInstance : Nat) : Result CommandRecording := do
  rec.graphics.check
  pure { rec with cmds := rec.cmds ++
    [NativeCmd.drawIndexed indexCount instanceCount firstIndex vertexOffset
      firstInstance] }

/-- `CommandRecording::draw_indexed_indirect`
(`src/command_buffer/draw.rs:296-315`): `bounds_check_n` with record size
20, then the usage check, then the binding state check. -/
def CommandRecording.drawIndexedIndirect (rec : CommandRecording)
    (buffer : Buffer) (offset drawCount stride : Nat) :
    Result CommandRecording := do
  boundsCheckN drawCount 20 stride buffer offset
  if buffer.usage &&& INDIRECT_BUFFER = 0 then
    throw Error.invalidArgument
  rec.graphics.check
  pure { rec with cmds := rec.cmds ++
    [NativeCmd.drawIndexedIndirect buffer.handle offset drawCount stride] }

/-- `CommandRecording::dispatch` (`src/command_buffer/draw.rs:318-333`). -/
def CommandRecording.dispatch (rec : CommandRecording) (x y z : Nat) :
    Result CommandRecording := do
  rec.compute.check
  pure { rec with cmds := rec.cmds ++ [NativeCmd.dispatch x y z] }

/-- `CommandRecording::dispatch_indirect`
(`src/command_buffer/draw.rs:334-347`). -/
def CommandRecording.dispatchIndirect (rec : CommandRecording)
    (buffer : Buffer) (offset : Nat) : Result CommandRecording := do
  rec.compute.check
  pure { rec with cmds := rec.cmds ++
    [NativeCmd.dispatchIndirect buffer.handle offset] }

/-- `RenderPassRecording` (`src/command_buffer.rs`): a recording inside a
render pass, tracking the pass (by handle) and the current subpass. -/
structure RenderPassRecording where
  cr : CommandRecording
  pass : Nat
  subpass : Nat

/-- `RenderPassRecording::draw` (`src/command_buffer/draw.rs:110-125`):
the render-pass compatibility check precedes the common draw path. -/
def RenderPassRecording.draw (rp : RenderPassRecording)
    (vertexCount instanceCount firstVertex firstInstance : Nat) :
    Result RenderPassRecording := do
  rp.cr.graphics.checkRenderPass rp.pass rp.subpass
  let r ← rp.cr.draw vertexCount instanceCount firstVertex firstInstance
  pure { rp with cr := r }

/-- `RenderPassRecording::draw_indirect`
(`src/command_buffer/draw.rs:126-137`). -/
def RenderPassRecording.drawIndirect (rp : RenderPassRecording)
    (buffer : Buffer) (offset drawCount stride : Nat) :
    Result RenderPassRecording := do
  rp.cr.graphics.checkRenderPass rp.pass rp.subpass
  let r ← rp.cr.drawIndirect buffer offset drawCount stride
  pure { rp with cr := r }

/-- `RenderPassRecording::draw_indexed`
(`src/command_buffer/draw.rs:138-153`). -/
def RenderPassRecording.drawIndexed (rp : RenderPassRecording)
    (indexCount instanceCount firstIndex : Nat) (vertexOffset : Int)
    (firstInstance : Nat) : Result RenderPassRecording := do
  rp.cr.graphics.checkRenderPass rp.pass rp.subpass
  let r ← rp.cr.drawIndexed indexCount instanceCount firstIndex vertexOffset
    firstInstance
  pure { rp with cr := r }

/-- `RenderPassRecording::draw_indexed_indirect`
(`src/command_buffer/draw.rs:154-165`). -/
def RenderPassRecording.drawIndexedIndirect (rp : RenderPassRecording)
    (buffer : Buffer) (offset drawCount stride : Nat) :
    Result RenderPassRecording := do
  rp.cr.graphics.checkRenderPass rp.pass rp.subpass
  let r ← rp.cr.drawIndexedIndirect buffer offset drawCount stride
  pure { rp with cr := r }

/-- `CommandRecording::fill_buffer` (`src/command_buffer/transfer.rs:22-50`):
the offset is rounded down to a multiple of 4 (`offset & !3` in `u64`); an
out-of-bounds offset/size makes the function `panic!` ("Buffer offset out
of bounds") before any native call; in bounds, an explicit size is rounded
down to a multiple of 4 and `None` becomes `u64::MAX`, and the native fill
is recorded. -/
def CommandRecording.fillBuffer (rec : CommandRecording) (dst : Buffer)
    (offset : Nat) (size : Option Nat) (data : Nat) :
    PanicOr CommandRecording :=
  let offset := offset &&& (2 ^ 64 - 4)
  match size with
  | some size =>
    if !dst.boundsCheck offset size then
      PanicOr.panicked "Buffer offset out of bounds"
    else
      PanicOr.ok { rec with cmds := rec.cmds ++
        [NativeCmd.fillBuffer dst.handle offset (size &&& (2 ^ 64 - 4)) data] }
  | none =>
    if !dst.boundsCheck offset 0 then
      PanicOr.panicked "Buffer offset out of bounds"
    else
      PanicOr.ok { rec with cmds := rec.cmds ++
        [NativeCmd.fillBuffer dst.handle offset U64_MAX data] }

/-- `CommandRecording::copy_buffer` (`src/command_buffer/transfer.rs:55-75`):
each region is `(src_offset, dst_offset, size)`; an out-of-bounds region
makes the function `panic!` ("Buffer region out of bounds") before any
native call, and an empty region list panics in `Array::from_slice`'s
`expect` ("Buffer regions empty"). -/
def CommandRecording.copyBuffer (rec : CommandRecording) (src dst : Buffer)
    (regions : List (Nat × Nat × Nat)) : PanicOr CommandRecording :=
  if regions.any fun r =>
      !src.boundsCheck r.1 r.2.2 || !dst.boundsCheck r.2.1 r.2.2 then
    PanicOr.panicked "Buffer region out of bounds"
  else if regions.isEmpty then
    PanicOr.panicked "Buffer regions empty"
  else
    PanicOr.ok { rec with cmds := rec.cmds ++
      [NativeCmd.copyBuffer src.handle dst.handle regions] }

/-- `MemoryRequirements` (`types`): size, alignment and the acceptable
memory-type bitmask reported for an unbound resource. -/
structure MemoryRequirements where
  size : Nat
  alignment : Nat
  memory_type_bits : Nat
  deriving DecidableEq, Repr

/-- `DeviceMemory` (`src/memory.rs`): handle, owning device, allocation
size and memory-type index. -/
structure DeviceMemory where
  handle : Nat
  device : Nat
  allocation_size : Nat
  memory_type_index : Nat
  deriving DecidableEq, Repr

/-- `DeviceMemory::check` (`src/memory.rs:81-87`): the bind-compatibility
check. `offset + size` is `u64` `overflowing_add`: the wrapped sum is
`(offset + size) % 2^64` and the overflow flag is `offset + size ≥ 2^64`;
overflow fails the check. -/
def DeviceMemory.check (m : DeviceMemory) (offset : Nat)
    (req : MemoryRequirements) : Bool :=
  let endWrapped := (offset + req.size) % 2 ^ 64
  let overflow := offset + req.size ≥ 2 ^ 64
  (1 <<< m.memory_type_index) &&& req.memory_type_bits ≠ 0
    && offset &&& (req.alignment - 1) = 0
    && !overflow
    && endWrapped ≤ m.allocation_size

/-- `BufferWithoutMemory` (`src/buffer.rs`): handle, declared length,
usage and device, plus the memory requirements the device reports for it
(`memory_requirements()` is a native query; its result is carried as
data). -/
structure BufferWithoutMemory where
  handle : Nat
  len : Nat
  usage : Nat
  device : Nat
  requirements : MemoryRequirements
  deriving DecidableEq, Repr

/-- `ImageWithoutMemory` (`src/image.rs`): handle, extent data elided to
what the bind path consults, plus reported memory requirements. -/
structure ImageWithoutMemory where
  handle : Nat
  device : Nat
  requirements : MemoryRequirements
  deriving DecidableEq, Repr

/-- A bound buffer as produced by `Buffer::new`: the unbound inner value
plus the memory it was bound to and the offset. -/
structure BoundBuffer where
  inner : BufferWithoutMemory
  memory : DeviceMemory
  offset : Nat
  deriving DecidableEq, Repr

/-- A bound image as produced by `Image::new`. -/
structure BoundImage where
  inner : ImageWithoutMemory
  memory : DeviceMemory
  offset : Nat
  deriving DecidableEq, Repr

/-- Result of a one-shot bind: on error, `recovered` is the unbound value
handed back to the caller (`ErrorAndSelf`), or `none` when the signature
returns a plain error and the unbound value is consumed and destroyed. -/
inductive BindResult (α β : Type) where
  | ok (bound : α)
  | err (e : Error) (recovered : Option β)
  deriving DecidableEq, Repr

/-- `Buffer::new` (`src/buffer.rs:62-70`): checks the memory against the
buffer's requirements; on failure returns
`ErrorAndSelf(Error::InvalidArgument, buffer)`, handing the unchanged
unbound buffer back; on success binds (native bind success path). -/
def Buffer.new (buffer : BufferWithoutMemory) (memory : DeviceMemory)
    (offset : Nat) : BindResult BoundBuffer BufferWithoutMemory :=
  if !memory.check offset buffer.requirements then
    BindResult.err Error.invalidArgument (some buffer)
  else
    BindResult.ok { inner := buffer, memory := memory, offset := offset }

/-- `Image::new` (`src/image.rs:228-247`): checks the memory against the
image's requirements; on failure returns `Err(Error::InvalidArgument)` —
a plain `Result`, so the unbound image is consumed by the call and
dropped, not handed back; on success binds (native bind success path). -/
def Image.new (image : ImageWithoutMemory) (memory : DeviceMemory)
    (offset : Nat) : BindResult BoundImage ImageWithoutMemory :=
  if !memory.check offset image.requirements then
    BindResult.err Error.invalidArgument none
  else
    BindResult.ok { inner := image, memory := memory, offset := offset }

/-- `PoolInner` (`src/command_buffer.rs:29-35`): the pool's native buffer
slots and the free list of slot indices (a slot not on the free list has
been lent out to a recording or recorded buffer). -/
structure PoolInner where
  buffers : List Nat
  freeBuffers : List Nat
  deriving DecidableEq, Repr

/-- `CommandPool::reset` (`src/command_buffer.rs:199-215`), native success
path: resets the native pool, then unconditionally repopulates the free
list with every slot index and resets the scratch allocator. There is no
in-flight check and no `SynchronizationError` path in this function. -/
def CommandPool.reset (p : PoolInner) : Result PoolInner :=
  Except.ok { p with freeBuffers := List.range p.buffers.length }

/-- `PendingFence` (`src/fence.rs`): the fence handle and the cleanup bag
of resource references retained for the in-flight submission. -/
structure PendingFence where
  handle : Nat
  resources : List Nat
  deriving DecidableEq, Repr

/-- `PendingFence::wait` (`src/fence.rs:89-109`), native success path:
blocks on the native fence, then releases every reference in the cleanup
bag (`resources.cleanup()`), resets the native fence, and returns the
unsignaled fence. The returned pair is (unsignaled fence handle, the
references that were released). -/
def PendingFence.wait (f : PendingFence) : Result (Nat × List Nat) :=
  Except.ok (f.handle, f.resources)

/-- One sealed submission batch (`VkSubmitInfo` as assembled by
`SubmitScope::advance`): wait semaphores with their stage masks, command
buffers, signal semaphores. -/
structure SubmitBatch where
  wait : List Nat
  masks : List Nat
  commands : List Nat
  signal : List Nat
  deriving DecidableEq, Repr

/-- `SubmitScope` (`src/queue.rs:82-91`), restricted to the batching
state: the sealed batches and the open batch's four accumulator lists. -/
structure SubmitScope where
  submits : List SubmitBatch
  wait : List Nat
  masks : List Nat
  commands : List Nat
  signal : List Nat
  deriving DecidableEq, Repr

/-- `SubmitScope::advance` (`src/queue.rs:220-244`): seals the open batch
onto the submit list and empties the accumulators; an entirely empty open
batch appends nothing. -/
def SubmitScope.advance (s : SubmitScope) : SubmitScope :=
  if s.wait.isEmpty && s.commands.isEmpty && s.signal.isEmpty then s
  else
    { submits := s.submits ++
        [{ wait := s.wait, masks := s.masks, commands := s.commands,
           signal := s.signal }]
      wait := [], masks := [], commands := [], signal := [] }

/-- `SubmitScope::wait` (`src/queue.rs:201-209`): seals first if any
command or signal is already in the open batch, then appends the wait
semaphore and its stage mask. -/
def SubmitScope.waitOp (s : SubmitScope) (semaphore stages : Nat) :
    SubmitScope :=
  let s := if !s.commands.isEmpty || !s.signal.isEmpty then s.advance else s
  { s with wait := s.wait ++ [semaphore], masks := s.masks ++ [stages] }

/-- `SubmitScope::command` (`src/queue.rs:210-215`): seals first if any
signal is already in the open batch, then appends the command buffer. -/
def SubmitScope.commandOp (s : SubmitScope) (command : Nat) : SubmitScope :=
  let s := if !s.signal.isEmpty then s.advance else s
  { s with commands := s.commands ++ [command] }

/-- `SubmitScope::signal` (`src/queue.rs:216-218`): appends the signal
semaphore; never seals. -/
def SubmitScope.signalOp (s : SubmitScope) (semaphore : Nat) : SubmitScope :=
  { s with signal := s.signal ++ [semaphore] }

/-- The skip loop of `BindingIter::next`
(`src/descriptor_set/update.rs:544-554`): starting at binding `b` with
remaining element offset `e`, advance across binding boundaries
(subtracting each passed binding's `descriptor_count`, thereby skipping
zero-count bindings) until the element offset lands inside a binding;
`none` when the cursor runs past the last binding. -/
def seekBinding (bindings : List DescriptorSetLayoutBinding) (b e : Nat) :
    Option (Nat × Nat) :=
  if h : b < bindings.length then
    if e < (bindings.get ⟨b, h⟩).descriptor_count then some (b, e)
    else seekBinding bindings (b + 1) (e - (bindings.get ⟨b, h⟩).descriptor_count)
  else none
termination_by bindings.length - b

/-- `BindingIter::next` (`src/descriptor_set/update.rs:542-562`): one step
of the binding-cursor iterator. Returns the yielded item (out-of-bounds
past the last binding, invalid-argument on a descriptor-type mismatch,
else the landed `(binding, element)` slot) and the advanced cursor. -/
def bindingIterNext (bindings : List DescriptorSetLayoutBinding)
    (ty : DescriptorType) (b e : Nat) : Result (Nat × Nat) × (Nat × Nat) :=
  match seekBinding bindings b e with
  | none => (Except.error Error.outOfBounds, (bindings.length, e))
  | some (b2, e2) =>
    if (bindings.get! b2).descriptor_type ≠ ty then
      (Except.error Error.invalidArgument, (b2, e2))
    else
      (Except.ok (b2, e2), (b2, e2 + 1))

/-- A one-binding uniform-buffer layout body used by the concrete
longest-common-prefix scenario. -/
def ubBinding : DescriptorSetLayoutBinding :=
  { descriptor_type := DescriptorType.uniformBuffer, descriptor_count := 1,
    stage_flags := 1, immutable_samplers := [] }

/-- A one-binding storage-buffer layout body used by the concrete
longest-common-prefix scenario. -/
def sbBinding : DescriptorSetLayoutBinding :=
  { descriptor_type := DescriptorType.storageBuffer, descriptor_count := 1,
    stage_flags := 1, immutable_samplers := [] }

/-- A one-binding sampled-image layout body used by the concrete
longest-common-prefix scenario. -/
def siBinding : DescriptorSetLayoutBinding :=
  { descriptor_type := DescriptorType.sampledImage, descriptor_count := 1,
    stage_flags := 1, immutable_samplers := [] }

/-- Concrete descriptor set layout `A` of the spec's scenario. -/
def layA : DescriptorSetLayout := { handle := 1, bindings := [ubBinding], device := 0 }

/-- Concrete descriptor set layout `B` of the spec's scenario. -/
def layB : DescriptorSetLayout := { handle := 2, bindings := [sbBinding], device := 0 }

/-- Concrete descriptor set layout `C` of the spec's scenario. -/
def layC : DescriptorSetLayout := { handle := 3, bindings := [siBinding], device := 0 }

/-- A pipeline whose layout signature is `A, B` (render-pass association
and compatibility are irrelevant to `Bindings::check`). -/
def pipeAB : Pipeline :=
  { layout := { layouts := [layA, layB] }, renderPass := some 0,
    compatible := fun _ _ => true }

/-- Binding state after binding `[A, B]` at index 0 in a fresh recording. -/
def stAB : Bindings :=
  (Bindings.empty).bindDescriptorSets { layouts := [layA, layB] } 0 2

/-- Binding state after then binding `[C]` at index 1 (pipeline layout
`A, C`). -/
def stAC : Bindings := stAB.bindDescriptorSets { layouts := [layA, layC] } 1 1

/-- Binding state after then rebinding `[B]` at index 1 (pipeline layout
`A, B`), without touching slot 0. -/
def stAB2 : Bindings := stAC.bindDescriptorSets { layouts := [layA, layB] } 1 1

/-- A freshly begun command recording (`RecordingSession::begin`): both
bind points empty, no native commands recorded. -/
def freshRecording : CommandRecording :=
  { graphics := Bindings.empty, compute := Bindings.empty, cmds := [] }

/-- A concrete 1024-byte buffer used by the transfer and indirect-draw
evaluations (usage includes the indirect bit). -/
def buf1024 : Buffer := { handle := 11, len := 1024, usage := 256 }

/-- Placeholder descriptor set used as the default of positional lookups
in specifications (never a real element). -/
def setDummy : DescriptorSet := { handle := 0, layout := layA, inited := [] }

/-- The spec's readiness condition for a dispatch at a bind point: a
pipeline is bound, and every descriptor-set slot required by that
pipeline's layout is marked initialized in the binding-state table with a
layout sequence matching the pipeline layout's (stated in the claim's
words, to be compared against `Bindings::check`). -/
def dispatchReady (b : Bindings) : Prop :=
  ∃ p, b.pipeline = some p ∧
    p.layout.layouts.length ≤ b.layout.length ∧
    ∀ k, k < p.layout.layouts.length →
      layoutEq (b.layout.getD k layA) (p.layout.layouts.getD k layA) = true
        ∧ b.inited.getD k false = true

/-- The spec's readiness condition for a draw: `dispatchReady` for the
graphics bind point plus compatibility of the bound pipeline with the
current render pass and subpass. -/
def drawReady (b : Bindings) (pass subpass : Nat) : Prop :=
  ∃ p, b.pipeline = some p ∧ p.compatible pass subpass = true ∧
    p.layout.layouts.length ≤ b.layout.length ∧
    ∀ k, k < p.layout.layouts.length →
      layoutEq (b.layout.getD k layA) (p.layout.layouts.getD k layA) = true
        ∧ b.inited.getD k false = true

/-- A compute pipeline expecting the single-set signature `A` (no
render-pass association). -/
def pipeC : Pipeline :=
  { layout := { layouts := [layA] }, renderPass := none,
    compatible := fun _ _ => true }

/-- A recording whose compute bind point has `pipeC` bound with a
matching, fully initialized binding state. -/
def readyCompute : CommandRecording :=
  { graphics := Bindings.empty,
    compute := { layout := [layA], inited := [true], pipeline := some pipeC },
    cmds := [] }

end Ember

namespace Ember

/-! ## Helper lemmas about the embedded vector operations -/

theorem vecResize_length {α : Type} (v : List α) (n : Nat) (x : α) :
    (vecResize v n x).length = n := by
  unfold vecResize; split <;> simp <;> omega

theorem vecResize_getD {α : Type} (v : List α) (n : Nat) (x d : α) (j : Nat) :
    (vecResize v n x).getD j d
      = if j < n then (if j < v.length then v.getD j d else x) else d := by
  simp only [List.getD_eq_getElem?_getD]
  unfold vecResize
  rcases Nat.lt_or_ge j n with hjn | hjn
  · rw [if_pos hjn]
    rcases Nat.lt_or_ge j v.length with hjv | hjv
    · rw [if_pos hjv]
      split
      · rw [List.getElem?_take_of_lt hjn, List.getElem?_eq_getElem hjv]
      · rw [List.getElem?_append_left hjv, List.getElem?_eq_getElem hjv]
    · rw [if_neg (show ¬ j < v.length by omega)]
      split
      · omega
      · rw [List.getElem?_append_right hjv, List.getElem?_replicate,
          if_pos (by omega)]
        rfl
  · rw [if_neg (show ¬ j < n by omega)]
    split
    · rw [List.getElem?_eq_none (by simp; omega)]; rfl
    · rw [List.getElem?_eq_none (by simp; omega)]; rfl

theorem fillTrue_length (v : List Bool) (b e : Nat) :
    (fillTrue v b e).length = v.length := by
  simp [fillTrue]

theorem fillTrue_getD (v : List Bool) (b e j : Nat) :
    (fillTrue v b e).getD j false
      = if j < v.length then
          (if b ≤ j ∧ j < e then true else v.getD j false)
        else false := by
  simp only [List.getD_eq_getElem?_getD]
  rcases Nat.lt_or_ge j v.length with h | h
  · have h2 : j < (fillTrue v b e).length := by rw [fillTrue_length]; exact h
    rw [List.getElem?_eq_getElem h2, List.getElem?_eq_getElem h]
    show (fillTrue v b e)[j] = _
    unfold fillTrue
    rw [List.getElem_mapIdx]
    rw [if_pos h]
    by_cases hb : b ≤ j ∧ j < e
    · rw [if_pos hb]
      rw [if_pos (by simp [hb.1, hb.2])]
    · rw [if_neg hb]
      rw [if_neg (by simpa [Bool.and_eq_true, decide_eq_true_eq] using hb)]
      rfl
  · rw [List.getElem?_eq_none (by rw [fillTrue_length]; omega)]
    rw [if_neg (show ¬ j < v.length by omega)]
    rfl

theorem divergeIdx_eq_findIdx (t n : List DescriptorSetLayout) :
    divergeIdx t n = (t.zip n).findIdx fun p => !(layoutEq p.1 p.2) := by
  unfold divergeIdx
  rw [List.findIdx_eq_findIdx?]
  cases h : (t.zip n).findIdx? fun p => !(layoutEq p.1 p.2) with
  | none =>
    simp only [Option.getD_none]
    exact (List.length_zip t n).symm
  | some i => simp

theorem divergeIdx_le (t n : List DescriptorSetLayout) :
    divergeIdx t n ≤ min t.length n.length := by
  rw [divergeIdx_eq_findIdx]
  have h := @List.findIdx_le_length _ (fun p => !(layoutEq p.1 p.2)) (t.zip n)
  rw [List.length_zip] at h
  exact h

theorem divergeIdx_eq_before (t n : List DescriptorSetLayout) (j : Nat)
    (hj : j < divergeIdx t n) :
    layoutEq (t.getD j layA) (n.getD j layA) = true := by
  rw [divergeIdx_eq_findIdx] at hj
  have hlen : j < (t.zip n).length :=
    lt_of_lt_of_le hj (List.findIdx_le_length _)
  have ht : j < t.length := by simp at hlen; omega
  have hn : j < n.length := by simp at hlen; omega
  have hfalse := List.not_of_lt_findIdx hj
  have hzip : (t.zip n)[j] = (t[j], n[j]) := List.getElem_zip
  rw [hzip] at hfalse
  rw [Bool.not_eq_false'] at hfalse
  rw [List.getD_eq_getElem _ _ ht, List.getD_eq_getElem _ _ hn]
  exact hfalse

theorem divergeIdx_ne_at (t n : List DescriptorSetLayout)
    (hj : divergeIdx t n < min t.length n.length) :
    layoutEq (t.getD (divergeIdx t n) layA) (n.getD (divergeIdx t n) layA)
      = false := by
  rw [divergeIdx_eq_findIdx] at hj ⊢
  have hlen : (t.zip n).findIdx (fun p => !(layoutEq p.1 p.2))
      < (t.zip n).length := by
    simpa [List.length_zip] using hj
  have ht : (t.zip n).findIdx (fun p => !(layoutEq p.1 p.2)) < t.length := by
    omega
  have hn : (t.zip n).findIdx (fun p => !(layoutEq p.1 p.2)) < n.length := by
    omega
  have htrue := List.findIdx_getElem (w := hlen)
  have hzip : (t.zip n)[(t.zip n).findIdx fun p => !(layoutEq p.1 p.2)]
      = (t[(t.zip n).findIdx fun p => !(layoutEq p.1 p.2)],
         n[(t.zip n).findIdx fun p => !(layoutEq p.1 p.2)]) :=
    List.getElem_zip
  rw [hzip] at htrue
  simp only [Bool.not_eq_true'] at htrue
  rw [List.getD_eq_getElem _ _ ht, List.getD_eq_getElem _ _ hn]
  exact htrue

theorem bindDS_layout (bnd : Bindings) (pl : PipelineLayout) (bg sets : Nat) :
    (bnd.bindDescriptorSets pl bg sets).layout
      = if divergeIdx bnd.layout (pl.layouts.take (bg + sets)) < bg + sets
        then pl.layouts.take (bg + sets) else bnd.layout := by
  simp only [Bindings.bindDescriptorSets]
  split <;> rfl

theorem bindDS_inited_getD (bnd : Bindings) (pl : PipelineLayout)
    (bg sets j : Nat) :
    (bnd.bindDescriptorSets pl bg sets).inited.getD j false
      = if bg ≤ j ∧ j < bg + sets then true
        else if j < bg then
          (if j < divergeIdx bnd.layout (pl.layouts.take (bg + sets))
           then bnd.inited.getD j false else false)
        else
          (if divergeIdx bnd.layout (pl.layouts.take (bg + sets)) < bg + sets
           then false else bnd.inited.getD j false) := by
  have hdle := divergeIdx_le bnd.layout (pl.layouts.take (bg + sets))
  have htake : (pl.layouts.take (bg + sets)).length ≤ bg + sets := by
    simp [List.length_take]
  simp only [Bindings.bindDescriptorSets]
  by_cases hie : divergeIdx bnd.layout (pl.layouts.take (bg + sets)) < bg + sets
  · rw [if_pos hie]
    simp only [vecResize_getD, vecResize_length]
    split_ifs <;>
      first
        | rfl
        | omega
        | (exact (List.getD_eq_default _ _ (by omega)).symm)
  · rw [if_neg hie]
    simp only [fillTrue_getD, vecResize_getD, vecResize_length]
    split_ifs <;>
      first
        | rfl
        | omega
        | (exact (List.getD_eq_default _ _ (by omega)).symm)

/-- C1: for every successful `bind_descriptor_sets` call, the per-bind-point
binding-state table is updated by the longest-common-prefix rule. With
`i := divergeIdx tracked new` the first index at which the new (truncated)
pipeline-layout sequence diverges from the tracked sequence: slots before
`i` that lie before the written range keep their "initialized" marks;
every slot of the newly written range `[first_set, first_set+sets)` is
marked initialized; slots before the written range at or past `i` are
invalidated; slots beyond the written range are invalidated exactly when
the sequences diverge inside the written range (`i < first_set + sets`,
i.e. a genuine mismatch or a tracked sequence shorter than the range);
and the tracked sequence is replaced by the new sequence exactly in that
divergent case. In particular, in the concrete scenario: binding `[A,B]`
then `[C]` at index 1 invalidates slot 1 (a draw check against an `A,B`
pipeline fails) but keeps slot 0 initialized, and rebinding `[B]` at
index 1 restores full validity without re-binding slot 0. -/
theorem C1_bind_descriptor_sets_lcp (bnd : Bindings) (pl : PipelineLayout)
    (bg sets : Nat) (h : bg + sets ≤ pl.layouts.length) :
    (∀ j, j < divergeIdx bnd.layout (pl.layouts.take (bg + sets)) →
      layoutEq (bnd.layout.getD j layA)
        ((pl.layouts.take (bg + sets)).getD j layA) = true) ∧
    (divergeIdx bnd.layout (pl.layouts.take (bg + sets))
        < min bnd.layout.length (pl.layouts.take (bg + sets)).length →
      layoutEq
        (bnd.layout.getD (divergeIdx bnd.layout
          (pl.layouts.take (bg + sets))) layA)
        ((pl.layouts.take (bg + sets)).getD (divergeIdx bnd.layout
          (pl.layouts.take (bg + sets))) layA) = false) ∧
    (∀ j, bg ≤ j → j < bg + sets →
      (bnd.bindDescriptorSets pl bg sets).inited.getD j false = true) ∧
    (∀ j, j < bg → j < divergeIdx bnd.layout (pl.layouts.take (bg + sets)) →
      (bnd.bindDescriptorSets pl bg sets).inited.getD j false
        = bnd.inited.getD j false) ∧
    (∀ j, divergeIdx bnd.layout (pl.layouts.take (bg + sets)) ≤ j → j < bg →
      (bnd.bindDescriptorSets pl bg sets).inited.getD j false = false) ∧
    (∀ j, bg + sets ≤ j →
      (bnd.bindDescriptorSets pl bg sets).inited.getD j false
        = if divergeIdx bnd.layout (pl.layouts.take (bg + sets)) < bg + sets
          then false else bnd.inited.getD j false) ∧
    ((bnd.bindDescriptorSets pl bg sets).layout
        = if divergeIdx bnd.layout (pl.layouts.take (bg + sets)) < bg + sets
          then pl.layouts.take (bg + sets) else bnd.layout) ∧
    (stAB.inited = [true, true] ∧ stAB.layout = [layA, layB] ∧
     Bindings.check { stAB with pipeline := some pipeAB } = Except.ok () ∧
     stAC.layout = [layA, layC] ∧ stAC.inited.getD 0 false = true ∧
     Bindings.check { stAC with pipeline := some pipeAB }
       = Except.error Error.invalidState ∧
     stAB2.layout = [layA, layB] ∧ stAB2.inited = [true, true] ∧
     Bindings.check { stAB2 with pipeline := some pipeAB } = Except.ok ()) := by
  refine ⟨?_, ?_, ?_, ?_, ?_, ?_, ?_, ?_⟩
  · exact fun j hj => divergeIdx_eq_before _ _ j hj
  · exact fun hj => divergeIdx_ne_at _ _ hj
  · intro j h1 h2
    rw [bindDS_inited_getD]
    rw [if_pos ⟨h1, h2⟩]
  · intro j h1 h2
    rw [bindDS_inited_getD]
    rw [if_neg (by omega), if_pos h1, if_pos h2]
  · intro j h1 h2
    rw [bindDS_inited_getD]
    rw [if_neg (by omega), if_pos h2, if_neg (by omega)]
  · intro j h1
    rw [bindDS_inited_getD]
    rw [if_neg (by omega), if_neg (by omega)]
  · exact bindDS_layout bnd pl bg sets
  · exact ⟨by decide, by decide, rfl, by decide, by decide, rfl, by decide,
      by decide, rfl⟩

/-- Witness for C1 at a concrete input: binding two sets at index 0 of a
fresh binding state marks slot 1 initialized. -/
theorem C1_bind_descriptor_sets_lcp_witness :
    (Bindings.empty.bindDescriptorSets { layouts := [layA, layB] } 0 2).inited.getD
      1 false = true :=
  (C1_bind_descriptor_sets_lcp Bindings.empty { layouts := [layA, layB] } 0 2
    (by decide)).2.2.1 1 (by omega) (by omega)

/-- C10: a descriptor set freshly allocated from a layout reports
initialized immediately (no write performed) precisely when the layout
declares no slots: an empty binding list or only zero-`descriptor_count`
bindings. Equivalently, a fresh set reports uninitialized only when some
binding declares `descriptor_count > 0`. -/
theorem C10_fresh_set_initialized_iff_no_slots (handle : Nat)
    (layout : DescriptorSetLayout) :
    (DescriptorSet.new handle layout).isInitialized = true
      ↔ ∀ b ∈ layout.bindings, b.descriptor_count = 0 := by
  simp only [DescriptorSet.new, DescriptorSet.isInitialized]
  constructor
  · intro h b hb
    have hmem : List.replicate b.descriptor_count false ∈
        layout.bindings.map fun b => List.replicate b.descriptor_count false :=
      List.mem_map_of_mem _ hb
    have h2 := (List.all_eq_true.mp h) _ hmem
    cases hc : b.descriptor_count with
    | zero => rfl
    | succ n =>
      rw [hc] at h2
      simp [List.replicate_succ] at h2
  · intro h
    rw [List.all_eq_true]
    rintro rs hrs
    rw [List.mem_map] at hrs
    obtain ⟨b, hb, rfl⟩ := hrs
    rw [h b hb]
    rfl

/-- Witness for C10 at a concrete input: a set allocated from a layout
with an empty binding list is initialized at once. -/
theorem C10_fresh_set_initialized_witness :
    (DescriptorSet.new 5 { handle := 9, bindings := [], device := 0 }).isInitialized
      = true :=
  (C10_fresh_set_initialized_iff_no_slots 5
    { handle := 9, bindings := [], device := 0 }).mpr (by intro b hb; cases hb)

/-- C7 counterexample: a pool whose single buffer slot is outstanding (the
free list is empty, as after the slot was handed to a recording and the
recorded buffer submitted) is reset successfully by `CommandPool::reset`;
the call does not return `SynchronizationError`. In this version of the
source there is no runtime in-flight check in `reset` at all. -/
theorem C7_reset_counterexample :
    CommandPool.reset { buffers := [7], freeBuffers := [] }
        = Except.ok { buffers := [7], freeBuffers := [0] } ∧
    CommandPool.reset { buffers := [7], freeBuffers := [] }
        ≠ Except.error Error.synchronizationError :=
  ⟨rfl, fun h => Except.noConfusion h⟩

/-- C7 (amended): `CommandPool::reset` performs no in-flight check and can
never return `SynchronizationError`: for every pool state it succeeds and
repopulates the free list with every slot index (exclusion of in-flight
buffers is enforced statically by borrowing in this version, not by a
runtime error); `PendingFence::wait` still releases exactly the cleanup
bag's references and returns the unsignaled fence. -/
theorem C7_reset_always_succeeds (p : PoolInner) :
    CommandPool.reset p
        = Except.ok { p with freeBuffers := List.range p.buffers.length } ∧
    (∀ e, CommandPool.reset p ≠ Except.error e) ∧
    (∀ f : PendingFence, f.wait = Except.ok (f.handle, f.resources)) :=
  ⟨rfl, fun _ h => Except.noConfusion h, fun _ => rfl⟩

/-- C6: out-of-range transfer arguments do not produce the documented
typed error conditions in this version: `fill_buffer` and `copy_buffer`
`panic!` before the native call (their doc comments promise
`Error::OutOfBounds`, and the disabled test `bounds_check` expects
`is_err()`), while an in-bounds `fill_buffer` records the native call
with offset and size rounded down to a multiple of 4. -/
theorem C6_transfer_panics_on_out_of_bounds :
    CommandRecording.fillBuffer freshRecording buf1024 2000 none 42
        = PanicOr.panicked "Buffer offset out of bounds" ∧
    CommandRecording.fillBuffer freshRecording buf1024 100 (some 1024) 42
        = PanicOr.panicked "Buffer offset out of bounds" ∧
    CommandRecording.copyBuffer freshRecording buf1024 buf1024 [(0, 100, 1024)]
        = PanicOr.panicked "Buffer region out of bounds" ∧
    CommandRecording.copyBuffer freshRecording buf1024 buf1024 [(100, 0, 1024)]
        = PanicOr.panicked "Buffer region out of bounds" ∧
    CommandRecording.fillBuffer freshRecording buf1024 6 (some 7) 42
        = PanicOr.ok { freshRecording with cmds :=
            [NativeCmd.fillBuffer buf1024.handle 4 4 42] } :=
  ⟨rfl, rfl, rfl, rfl, rfl⟩

theorem advance_seals (s : SubmitScope)
    (h : s.wait ≠ [] ∨ s.commands ≠ [] ∨ s.signal ≠ []) :
    s.advance =
      { submits := s.submits ++
          [{ wait := s.wait, masks := s.masks, commands := s.commands,
             signal := s.signal }],
        wait := [], masks := [], commands := [], signal := [] } := by
  have hc : (s.wait.isEmpty && (s.commands.isEmpty && s.signal.isEmpty))
      = false := by
    rcases h with h | h | h <;> simp [List.isEmpty_iff, h]
  unfold SubmitScope.advance
  simp only [Bool.and_assoc, hc, Bool.false_eq_true, if_false]

theorem advance_empty (s : SubmitScope) (h1 : s.wait = [])
    (h2 : s.commands = []) (h3 : s.signal = []) : s.advance = s := by
  unfold SubmitScope.advance
  rw [if_pos]
  simp [h1, h2, h3]

/-- C8: the advance-on-conflict rule of `SubmitScope`: batches appended to
the submit list keep all waits before all commands before all signals.
Appending a wait seals the open batch exactly when a command or signal
has already been appended to it; appending a command seals exactly when a
signal has been appended; appending a signal never seals; and sealing an
entirely empty open batch appends nothing. -/
theorem C8_submit_scope_advance_on_conflict (s : SubmitScope)
    (sem stages cmd sg : Nat) :
    ((s.commands ≠ [] ∨ s.signal ≠ []) →
      s.waitOp sem stages =
        { submits := s.submits ++
            [{ wait := s.wait, masks := s.masks, commands := s.commands,
               signal := s.signal }],
          wait := [sem], masks := [stages], commands := [], signal := [] }) ∧
    (s.commands = [] → s.signal = [] →
      s.waitOp sem stages =
        { s with wait := s.wait ++ [sem], masks := s.masks ++ [stages] }) ∧
    (s.signal ≠ [] →
      s.commandOp cmd =
        { submits := s.submits ++
            [{ wait := s.wait, masks := s.masks, commands := s.commands,
               signal := s.signal }],
          wait := [], masks := [], commands := [cmd], signal := [] }) ∧
    (s.signal = [] →
      s.commandOp cmd = { s with commands := s.commands ++ [cmd] }) ∧
    (s.signalOp sg = { s with signal := s.signal ++ [sg] }) ∧
    ((s.signalOp sg).submits = s.submits) ∧
    (s.wait = [] → s.commands = [] → s.signal = [] → s.advance = s) := by
  refine ⟨?_, ?_, ?_, ?_, rfl, rfl, advance_empty s⟩
  · intro h
    have hc : (!s.commands.isEmpty || !s.signal.isEmpty) = true := by
      rcases h with h | h <;> simp [List.isEmpty_iff, h]
    simp [SubmitScope.waitOp, hc, advance_seals s (Or.inr h)]
  · intro h2 h3
    simp [SubmitScope.waitOp, h2, h3]
  · intro h
    have hc : (!s.signal.isEmpty) = true := by simp [List.isEmpty_iff, h]
    simp [SubmitScope.commandOp, hc, advance_seals s (Or.inr (Or.inr h))]
  · intro h
    simp [SubmitScope.commandOp, h]

theorem layoutSeqEq_iff (a b : List DescriptorSetLayout) :
    layoutSeqEq a b = true
      ↔ (a.length = b.length ∧ ∀ k, k < a.length →
          layoutEq (a.getD k layA) (b.getD k layA) = true) := by
  induction a generalizing b with
  | nil =>
    cases b <;> simp [layoutSeqEq]
  | cons x xs ih =>
    cases b with
    | nil => simp [layoutSeqEq]
    | cons y ys =>
      simp only [layoutSeqEq, Bool.and_eq_true, ih, List.length_cons]
      constructor
      · rintro ⟨h1, h2, h3⟩
        refine ⟨by omega, fun k hk => ?_⟩
        cases k with
        | zero => simpa using h1
        | succ n => simpa using h3 n (by omega)
      · rintro ⟨h1, h2⟩
        refine ⟨by simpa using h2 0 (by omega), by omega, fun k hk => ?_⟩
        simpa using h2 (k + 1) (by omega)

theorem layoutSeqEq_slots_iff (sets : List DescriptorSet)
    (L : List DescriptorSetLayout) (f : Nat) :
    layoutSeqEq (sets.map fun s => s.layout) ((L.drop f).take sets.length)
        = true
      ↔ (sets.length ≤ L.length - f ∧ ∀ k, k < sets.length →
          layoutEq (sets.getD k setDummy).layout (L.getD (f + k) layA)
            = true) := by
  rw [layoutSeqEq_iff]
  have hlen : ((L.drop f).take sets.length).length
      = min sets.length (L.length - f) := by
    simp [List.length_take, List.length_drop]
  constructor
  · rintro ⟨h1, h2⟩
    simp only [List.length_map] at h1
    rw [hlen] at h1
    have hle : sets.length ≤ L.length - f := by omega
    refine ⟨hle, fun k hk => ?_⟩
    have := h2 k (by simp [hk])
    have hmap : (sets.map fun s => s.layout).getD k layA
        = (sets.getD k setDummy).layout := by
      rw [List.getD_eq_getElem?_getD, List.getD_eq_getElem?_getD,
        List.getElem?_map, List.getElem?_eq_getElem (l := sets) hk]
      rfl
    have htk : ((L.drop f).take sets.length).getD k layA
        = L.getD (f + k) layA := by
      rw [List.getD_eq_getElem?_getD, List.getD_eq_getElem?_getD,
        List.getElem?_take_of_lt hk, List.getElem?_drop]
    rw [hmap, htk] at this
    exact this
  · rintro ⟨h1, h2⟩
    constructor
    · simp only [List.length_map]
      rw [hlen]
      omega
    · intro k hk
      simp only [List.length_map] at hk
      have := h2 k hk
      have hmap : (sets.map fun s => s.layout).getD k layA
          = (sets.getD k setDummy).layout := by
        rw [List.getD_eq_getElem?_getD, List.getD_eq_getElem?_getD,
          List.getElem?_map, List.getElem?_eq_getElem (l := sets) hk]
        rfl
      have htk : ((L.drop f).take sets.length).getD k layA
          = L.getD (f + k) layA := by
        rw [List.getD_eq_getElem?_getD, List.getD_eq_getElem?_getD,
          List.getElem?_take_of_lt hk, List.getElem?_drop]
      rw [hmap, htk]
      exact this

/-- C3 counterexample: with no sets, `first_set = 2` and a one-slot
pipeline layout, all three validation conditions hold (the empty layout
sequences compare equal, zero dynamic offsets are expected and supplied,
and there is no uninitialized set), yet the call does not succeed: the
unchecked slice `&layout.layouts()[0..first_set]` of `bind.rs:210`
panics, refuting "when all conditions hold the call succeeds". -/
theorem C3_empty_sets_out_of_range_panics :
    (layoutSeqEq (([] : List DescriptorSet).map fun s => s.layout)
        ((({ layouts := [layA] } : PipelineLayout).layouts.drop 2).take
          ([] : List DescriptorSet).length) = true) ∧
    ((([] : List DescriptorSet).map fun s => s.layout.numDynamicOffsets).sum
        = ([] : List Nat).length) ∧
    (∀ s ∈ ([] : List DescriptorSet), s.isInitialized = true) ∧
    CommandRecording.bindDescriptorSets freshRecording BindPoint.graphics
        { layouts := [layA] } 2 [] []
      = PanicOr.panicked "range end index out of range for slice" :=
  ⟨by decide, by decide, ⟨fun s hs => absurd hs (List.not_mem_nil s), rfl⟩⟩

/-- C3 (amended): `bind_descriptor_sets(bind_point, layout, first_set,
sets, dynamic_offsets)` returns an invalid-argument error exactly when
one of the three validation conditions fails: the sets' layouts
structurally equal the pipeline layout's slots starting at `first_set`
(structural equality compares binding sequence and device only,
independent of the native handle), the total dynamic-offset count across
the sets equals `dynamic_offsets.len()`, and every set is fully
initialized. When all conditions hold and `first_set + sets.len()` does
not exceed the pipeline layout's set count — which is automatic whenever
`sets` is nonempty — the call succeeds, applies the
longest-common-prefix update to the selected bind point, and records the
native bind; in the remaining corner (`sets` empty with `first_set`
beyond the pipeline layout's set count) the validation passes but the
unchecked slice of the pipeline layout's sequence panics. -/
theorem C3_bind_descriptor_sets_validation (rec : CommandRecording)
    (bp : BindPoint) (layout : PipelineLayout) (firstSet : Nat)
    (sets : List DescriptorSet) (dyn : List Nat) :
    (rec.bindDescriptorSets bp layout firstSet sets dyn
        = PanicOr.ok (Except.error Error.invalidArgument)
      ↔ ¬(layoutSeqEq (sets.map fun s => s.layout)
            ((layout.layouts.drop firstSet).take sets.length) = true
          ∧ (sets.map fun s => s.layout.numDynamicOffsets).sum = dyn.length
          ∧ ∀ s ∈ sets, s.isInitialized = true)) ∧
    ((layoutSeqEq (sets.map fun s => s.layout)
          ((layout.layouts.drop firstSet).take sets.length) = true
        ∧ (sets.map fun s => s.layout.numDynamicOffsets).sum = dyn.length
        ∧ ∀ s ∈ sets, s.isInitialized = true) →
      firstSet + sets.length ≤ layout.layouts.length →
      rec.bindDescriptorSets bp layout firstSet sets dyn
        = PanicOr.ok (Except.ok
          { graphics := if bp = BindPoint.graphics
              then rec.graphics.bindDescriptorSets layout firstSet sets.length
              else rec.graphics,
            compute := if bp = BindPoint.graphics then rec.compute
              else rec.compute.bindDescriptorSets layout firstSet sets.length,
            cmds := rec.cmds ++ [NativeCmd.bindDescriptorSets bp firstSet
              (sets.map fun s => s.handle) dyn] })) ∧
    ((layoutSeqEq (sets.map fun s => s.layout)
          ((layout.layouts.drop firstSet).take sets.length) = true
        ∧ (sets.map fun s => s.layout.numDynamicOffsets).sum = dyn.length
        ∧ ∀ s ∈ sets, s.isInitialized = true) →
      layout.layouts.length < firstSet + sets.length →
      rec.bindDescriptorSets bp layout firstSet sets dyn
        = PanicOr.panicked "range end index out of range for slice") ∧
    (layoutSeqEq (sets.map fun s => s.layout)
        ((layout.layouts.drop firstSet).take sets.length) = true →
      sets ≠ [] → firstSet + sets.length ≤ layout.layouts.length) ∧
    (layoutSeqEq (sets.map fun s => s.layout)
        ((layout.layouts.drop firstSet).take sets.length) = true
      ↔ (sets.length ≤ layout.layouts.length - firstSet ∧
          ∀ k, k < sets.length →
            layoutEq (sets.getD k setDummy).layout
              (layout.layouts.getD (firstSet + k) layA) = true)) ∧
    (∀ h1 h2 bs d, layoutEq { handle := h1, bindings := bs, device := d }
        { handle := h2, bindings := bs, device := d } = true) ∧
    (∀ l1 l2 : DescriptorSetLayout, layoutEq l1 l2 = true
        ↔ (l1.bindings = l2.bindings ∧ l1.device = l2.device)) := by
  have hcondAll : ∀ (h1 : layoutSeqEq (sets.map fun s => s.layout)
        ((layout.layouts.drop firstSet).take sets.length) = true)
      (h2 : (sets.map fun s => s.layout.numDynamicOffsets).sum = dyn.length)
      (h3 : ∀ s ∈ sets, s.isInitialized = true),
      ¬ (!layoutSeqEq (sets.map fun s => s.layout)
            ((layout.layouts.drop firstSet).take sets.length)
          || decide ((sets.map fun s => s.layout.numDynamicOffsets).sum
              ≠ dyn.length)
          || sets.any fun s => !s.isInitialized) = true := by
    intro h1 h2 h3
    simp only [Bool.or_eq_true, Bool.not_eq_true', decide_eq_true_eq,
      List.any_eq_true, not_or]
    push_neg
    refine ⟨⟨by simp [h1], h2⟩, fun s hs => ?_⟩
    simp [h3 s hs]
  refine ⟨?_, ?_, ?_, ?_,
    layoutSeqEq_slots_iff sets layout.layouts firstSet,
    fun h1 h2 bs d => by simp [layoutEq], fun l1 l2 => by simp [layoutEq]⟩
  · unfold CommandRecording.bindDescriptorSets
    split
    · rename_i h
      simp only [Bool.or_eq_true, Bool.not_eq_true', decide_eq_true_eq,
        List.any_eq_true] at h
      constructor
      · intro _
        rintro ⟨h1, h2, h3⟩
        rcases h with (h | h) | ⟨s, hs, h⟩
        · rw [h1] at h; cases h
        · exact h h2
        · rw [h3 s hs] at h
          cases h
      · intro _; rfl
    · rename_i h
      simp only [Bool.or_eq_true, Bool.not_eq_true', decide_eq_true_eq,
        List.any_eq_true, not_or] at h
      push_neg at h
      constructor
      · intro hx
        split at hx
        · exact PanicOr.noConfusion hx
        · injection hx with hx2
          exact Except.noConfusion hx2
      · intro hx
        exfalso
        apply hx
        refine ⟨Bool.ne_false_iff.mp h.1.1, h.1.2, fun s hs => ?_⟩
        exact Bool.ne_false_iff.mp (h.2 s hs)
  · intro ⟨h1, h2, h3⟩ hrange
    unfold CommandRecording.bindDescriptorSets
    rw [if_neg (hcondAll h1 h2 h3), if_neg (by omega)]
    cases bp with
    | graphics => simp
    | compute => simp
  · intro ⟨h1, h2, h3⟩ hlt
    unfold CommandRecording.bindDescriptorSets
    rw [if_neg (hcondAll h1 h2 h3), if_pos hlt]
  · intro h1 hne
    have hlen := ((layoutSeqEq_slots_iff sets layout.layouts firstSet).mp
      h1).1
    have hpos : 0 < sets.length := List.length_pos.mpr hne
    omega

/-- Witness for C3 at a concrete input: binding an initialized set of
layout `A` at slot 0 of a pipeline layout `A, B` succeeds and records the
native bind. -/
theorem C3_bind_descriptor_sets_witness :
    CommandRecording.bindDescriptorSets freshRecording BindPoint.graphics
        { layouts := [layA, layB] } 0
        [{ handle := 21, layout := layA, inited := [[true]] }] []
      = PanicOr.ok (Except.ok
        { graphics := Bindings.empty.bindDescriptorSets
            { layouts := [layA, layB] } 0 1,
          compute := Bindings.empty,
          cmds := [NativeCmd.bindDescriptorSets BindPoint.graphics 0 [21]
            []] }) := by
  have h := (C3_bind_descriptor_sets_validation freshRecording
    BindPoint.graphics { layouts := [layA, layB] } 0
    [{ handle := 21, layout := layA, inited := [[true]] }] []).2.1
    ⟨by decide, by decide, by decide⟩ (by decide)
  simpa using h

theorem nat_and_three_eq_mod (n : Nat) : n &&& 3 = n % 4 := by
  have := Nat.and_pow_two_sub_one_eq_mod n 2
  norm_num at this
  omega

/-- C5 counterexample: with `draw_count = 2` (two or more records), record
size 16 and the 4-misaligned stride 17, `bounds_check_n` accepts the call
(stride alignment is never checked; the source's 4-alignment check is on
the offset), refuting "a stride smaller than the per-record size or not
4-byte aligned is rejected as invalid-argument". -/
theorem C5_stride_alignment_counterexample :
    boundsCheckN 2 16 17 buf1024 0 = Except.ok () ∧ (17 : Nat) % 4 ≠ 0 :=
  ⟨rfl, by decide⟩

/-- C5 (amended): the indirect-draw stride rule of `bounds_check_n` (record
size 16 for `draw_indirect`, 20 for `draw_indexed_indirect`). With fewer
than two records the caller's stride is ignored (replaced by the record
size); with two or more records a stride below the record size is an
invalid argument, but stride alignment is not checked — instead the
OFFSET must be a multiple of 4 or the call is an invalid argument;
`draw_count * stride` is a checked `u64` multiplication whose overflow is
out-of-bounds (unreachable for 32-bit inputs, which never overflow 64
bits); and in the checked cases the call succeeds exactly when the byte
range fits in the buffer, failing out-of-bounds otherwise. -/
theorem C5_indirect_stride_rule (count size stride stride2 offset : Nat)
    (buf : Buffer) (rec : CommandRecording) :
    (count < 2 →
      boundsCheckN count size stride buf offset
        = boundsCheckN count size stride2 buf offset) ∧
    (2 ≤ count → stride < size →
      boundsCheckN count size stride buf offset
        = Except.error Error.invalidArgument) ∧
    (offset % 4 ≠ 0 →
      boundsCheckN count size stride buf offset
        = Except.error Error.invalidArgument) ∧
    (2 ≤ count → size ≤ stride → offset % 4 = 0 → count * stride > U64_MAX →
      boundsCheckN count size stride buf offset
        = Except.error Error.outOfBounds) ∧
    (count < 2 ^ 32 → stride < 2 ^ 32 → ¬ count * stride > U64_MAX) ∧
    (2 ≤ count → size ≤ stride → offset % 4 = 0 → ¬ count * stride > U64_MAX →
      (boundsCheckN count size stride buf offset = Except.ok ()
          ↔ offset + count * stride ≤ buf.len) ∧
      (¬ offset + count * stride ≤ buf.len →
        boundsCheckN count size stride buf offset
          = Except.error Error.outOfBounds)) ∧
    (2 ≤ count → stride < 16 → buf.usage &&& INDIRECT_BUFFER ≠ 0 →
      rec.drawIndirect buf offset count stride
        = Except.error Error.invalidArgument) ∧
    (2 ≤ count → stride < 20 →
      rec.drawIndexedIndirect buf offset count stride
        = Except.error Error.invalidArgument) := by
  have halign : offset &&& 3 = offset % 4 := nat_and_three_eq_mod offset
  refine ⟨?_, ?_, ?_, ?_, ?_, ?_, ?_, ?_⟩
  · intro h
    unfold boundsCheckN
    rw [if_pos h, if_pos h]
  · intro hc hs
    unfold boundsCheckN
    simp only [Bool.or_eq_true, decide_eq_true_eq]
    rw [if_neg (show ¬ count < 2 by omega), if_pos (Or.inl hs)]
  · intro ha
    unfold boundsCheckN
    simp only [halign, Bool.or_eq_true, decide_eq_true_eq]
    split
    · rw [if_pos (Or.inr ha)]
    · rw [if_pos (Or.inr ha)]
  · intro hc hs ha hov
    unfold boundsCheckN
    simp only [halign, Bool.or_eq_true, decide_eq_true_eq]
    rw [if_neg (show ¬ count < 2 by omega),
      if_neg (show ¬ (stride < size ∨ offset % 4 ≠ 0) by omega),
      if_pos hov]
  · intro h1 h2
    have : count * stride < 2 ^ 32 * 2 ^ 32 := by
      calc count * stride ≤ count * (2 ^ 32 - 1) := by
            exact Nat.mul_le_mul_left count (by omega)
        _ ≤ (2 ^ 32 - 1) * (2 ^ 32 - 1) := by
            exact Nat.mul_le_mul_right _ (by omega)
        _ < 2 ^ 32 * 2 ^ 32 := by norm_num
    unfold U64_MAX
    norm_num at this ⊢
    omega
  · intro hc hs ha hov
    unfold boundsCheckN
    simp only [halign, Bool.or_eq_true, decide_eq_true_eq]
    rw [if_neg (show ¬ count < 2 by omega),
      if_neg (show ¬ (stride < size ∨ offset % 4 ≠ 0) by omega),
      if_neg hov]
    unfold Buffer.boundsCheck
    constructor
    · constructor
      · intro h
        by_cases hb : (buf.len ≥ offset && buf.len - offset ≥ count * stride)
            = true
        · simp only [Bool.and_eq_true, decide_eq_true_eq] at hb
          omega
        · rw [if_pos (by simp [hb])] at h
          cases h
      · intro h
        rw [if_neg (by simp; omega)]
    · intro h
      rw [if_pos (by simp; omega)]
  · intro hc hs hu
    have hb : boundsCheckN count 16 stride buf offset
        = Except.error Error.invalidArgument := by
      unfold boundsCheckN
      simp only [Bool.or_eq_true, decide_eq_true_eq]
      rw [if_neg (show ¬ count < 2 by omega), if_pos (Or.inl hs)]
    unfold CommandRecording.drawIndirect
    rw [if_neg hu]
    simp only [hb, bind, Except.bind]
    rfl
  · intro hc hs
    have hb : boundsCheckN count 20 stride buf offset
        = Except.error Error.invalidArgument := by
      unfold boundsCheckN
      simp only [Bool.or_eq_true, decide_eq_true_eq]
      rw [if_neg (show ¬ count < 2 by omega), if_pos (Or.inl hs)]
    unfold CommandRecording.drawIndexedIndirect
    simp only [hb, bind, Except.bind]

/-- Witness for C5 (amended) at concrete inputs: a stride of 8 with
record size 16 and two records is rejected as invalid-argument. -/
theorem C5_indirect_stride_rule_witness :
    boundsCheckN 2 16 8 buf1024 0 = Except.error Error.invalidArgument :=
  (C5_indirect_stride_rule 2 16 8 0 0 buf1024 freshRecording).2.1
    (by omega) (by omega)

/-- Witness for C8 at a concrete input: a wait appended after a command
seals the open batch. -/
theorem C8_submit_scope_witness :
    SubmitScope.waitOp
        { submits := [], wait := [], masks := [], commands := [4], signal := [] }
        7 2
      = { submits := [{ wait := [], masks := [], commands := [4], signal := [] }],
          wait := [7], masks := [2], commands := [], signal := [] } :=
  (C8_submit_scope_advance_on_conflict
    { submits := [], wait := [], masks := [], commands := [4], signal := [] }
    7 2 0 0).1 (Or.inl (by simp))

theorem getD_take_lt {α : Type} (l : List α) (n k : Nat) (d : α) (h : k < n) :
    (l.take n).getD k d = l.getD k d := by
  rw [List.getD_eq_getElem?_getD, List.getD_eq_getElem?_getD,
    List.getElem?_take_of_lt h]

theorem takeWhile_count_iff (l : List Bool) (n : Nat) :
    n ≤ (l.takeWhile id).length ↔ ∀ k, k < n → l.getD k false = true := by
  induction l generalizing n with
  | nil =>
    simp only [List.takeWhile_nil, List.length_nil, Nat.le_zero]
    constructor
    · rintro rfl k hk; omega
    · intro h
      by_contra hn
      have h0 := h 0 (by omega)
      simp [List.getD] at h0
  | cons x xs ih =>
    cases x with
    | false =>
      rw [List.takeWhile_cons]
      simp only [id, if_neg (by decide : ¬ (false = true))]
      simp only [List.length_nil, Nat.le_zero]
      constructor
      · rintro rfl k hk; omega
      · intro h
        by_contra hn
        have h0 := h 0 (by omega)
        simp [List.getD] at h0
    | true =>
      rw [List.takeWhile_cons]
      simp only [id]
      rw [if_pos trivial]
      simp only [List.length_cons]
      cases n with
      | zero =>
        constructor
        · intro _ k hk; omega
        · intro _; omega
      | succ m =>
        rw [Nat.succ_le_succ_iff, ih m]
        constructor
        · intro h k hk
          cases k with
          | zero => rfl
          | succ j => exact h j (by omega)
        · intro h k hk
          exact h (k + 1) (by omega)

theorem check_ok_iff (b : Bindings) :
    b.check = Except.ok () ↔ dispatchReady b := by
  unfold Bindings.check dispatchReady
  split
  · rename_i p hp
    constructor
    · intro h
      split at h
      · rename_i hc
        simp only [Bool.and_eq_true, decide_eq_true_eq] at hc
        obtain ⟨⟨h1, h2⟩, h3⟩ := hc
        refine ⟨p, hp, h1, fun k hk => ?_⟩
        constructor
        · have hall := (layoutSeqEq_iff _ _).mp h2
          have := hall.2 k (by simp only [List.length_take]; omega)
          rwa [getD_take_lt _ _ _ _ hk] at this
        · exact (takeWhile_count_iff b.inited p.layout.layouts.length).mp h3
            k hk
      · cases h
    · rintro ⟨q, hq, hlen, hpt⟩
      rw [hp] at hq
      obtain rfl : p = q := by injection hq
      have hc : (decide (b.layout.length ≥ p.layout.layouts.length)
          && layoutSeqEq (b.layout.take p.layout.layouts.length)
            p.layout.layouts
          && decide ((b.inited.takeWhile id).length
              ≥ p.layout.layouts.length)) = true := by
        simp only [Bool.and_eq_true, decide_eq_true_eq]
        refine ⟨⟨hlen, ?_⟩, ?_⟩
        · rw [layoutSeqEq_iff]
          have hlen2 : (b.layout.take p.layout.layouts.length).length
              = p.layout.layouts.length := by
            simp only [List.length_take]
            omega
          refine ⟨hlen2, fun k hk => ?_⟩
          rw [hlen2] at hk
          rw [getD_take_lt _ _ _ _ hk]
          exact (hpt k hk).1
        · exact (takeWhile_count_iff b.inited p.layout.layouts.length).mpr
            fun k hk => (hpt k hk).2
      rw [if_pos hc]
  · rename_i hp
    constructor
    · intro h; cases h
    · rintro ⟨q, hq, _⟩
      rw [hp] at hq
      cases hq

theorem check_cases (b : Bindings) :
    b.check = Except.ok () ∨ b.check = Except.error Error.invalidState := by
  unfold Bindings.check
  split
  · split
    · left; rfl
    · right; rfl
  · right; rfl

theorem checkRP_ok_iff (b : Bindings) (pass subpass : Nat) :
    b.checkRenderPass pass subpass = Except.ok ()
      ↔ ∃ p, b.pipeline = some p ∧ p.compatible pass subpass = true := by
  unfold Bindings.checkRenderPass
  split
  · rename_i p hp
    constructor
    · intro h
      split at h
      · exact ⟨p, hp, by assumption⟩
      · cases h
    · rintro ⟨q, hq, hc⟩
      rw [hp] at hq
      obtain rfl : p = q := by injection hq
      rw [if_pos hc]
  · rename_i hp
    constructor
    · intro h; cases h
    · rintro ⟨q, hq, _⟩
      rw [hp] at hq
      cases hq

theorem checkRP_cases (b : Bindings) (pass subpass : Nat) :
    b.checkRenderPass pass subpass = Except.ok ()
      ∨ b.checkRenderPass pass subpass = Except.error Error.invalidState := by
  unfold Bindings.checkRenderPass
  split
  · split
    · left; rfl
    · right; rfl
  · right; rfl

theorem drawReady_iff (b : Bindings) (pass subpass : Nat) :
    drawReady b pass subpass
      ↔ (b.checkRenderPass pass subpass = Except.ok ()
          ∧ b.check = Except.ok ()) := by
  rw [check_ok_iff, checkRP_ok_iff]
  unfold drawReady dispatchReady
  constructor
  · rintro ⟨p, hp, hc, hlen, hpt⟩
    exact ⟨⟨p, hp, hc⟩, ⟨p, hp, hlen, hpt⟩⟩
  · rintro ⟨⟨p, hp, hc⟩, ⟨q, hq, hlen, hpt⟩⟩
    have : q = p := by rw [hp] at hq; cases hq; rfl
    subst this
    exact ⟨q, hp, hc, hlen, hpt⟩

theorem except_bind_ok {α β : Type} (a : α) (f : α → Result β) :
    (Except.ok a >>= f) = f a := rfl

theorem except_bind_err {α β : Type} (e : Error) (f : α → Result β) :
    ((Except.error e : Result α) >>= f) = Except.error e := rfl

theorem draw_spec (rp : RenderPassRecording) (v i fv fi : Nat) :
    (rp.draw v i fv fi = Except.ok { rp with cr := { rp.cr with
        cmds := rp.cr.cmds ++ [NativeCmd.draw v i fv fi] } }
      ↔ drawReady rp.cr.graphics rp.pass rp.subpass) ∧
    (¬ drawReady rp.cr.graphics rp.pass rp.subpass →
      rp.draw v i fv fi = Except.error Error.invalidState) := by
  rw [drawReady_iff]
  unfold RenderPassRecording.draw CommandRecording.draw
  rcases checkRP_cases rp.cr.graphics rp.pass rp.subpass with h1 | h1 <;>
    rcases check_cases rp.cr.graphics with h2 | h2 <;>
    rw [h1, h2] <;>
    simp [except_bind_ok, except_bind_err, h1, h2]


theorem drawIndexed_spec (rp : RenderPassRecording) (ic inst fidx : Nat)
    (vo : Int) (fi : Nat) :
    (rp.drawIndexed ic inst fidx vo fi = Except.ok { rp with cr := { rp.cr with
        cmds := rp.cr.cmds ++ [NativeCmd.drawIndexed ic inst fidx vo fi] } }
      ↔ drawReady rp.cr.graphics rp.pass rp.subpass) ∧
    (¬ drawReady rp.cr.graphics rp.pass rp.subpass →
      rp.drawIndexed ic inst fidx vo fi = Except.error Error.invalidState) := by
  rw [drawReady_iff]
  unfold RenderPassRecording.drawIndexed CommandRecording.drawIndexed
  rcases checkRP_cases rp.cr.graphics rp.pass rp.subpass with h1 | h1 <;>
    rcases check_cases rp.cr.graphics with h2 | h2 <;>
    rw [h1, h2] <;>
    simp [except_bind_ok, except_bind_err, h1, h2]

theorem drawIndirect_spec (rp : RenderPassRecording) (buf : Buffer)
    (offset count stride : Nat)
    (hu : buf.usage &&& INDIRECT_BUFFER ≠ 0)
    (hb : boundsCheckN count 16 stride buf offset = Except.ok ()) :
    (rp.drawIndirect buf offset count stride
        = Except.ok { rp with cr := { rp.cr with
            cmds := rp.cr.cmds
              ++ [NativeCmd.drawIndirect buf.handle offset count stride] } }
      ↔ drawReady rp.cr.graphics rp.pass rp.subpass) ∧
    (¬ drawReady rp.cr.graphics rp.pass rp.subpass →
      rp.drawIndirect buf offset count stride
        = Except.error Error.invalidState) := by
  rw [drawReady_iff]
  unfold RenderPassRecording.drawIndirect CommandRecording.drawIndirect
  rw [if_neg hu, hb]
  rcases checkRP_cases rp.cr.graphics rp.pass rp.subpass with h1 | h1 <;>
    rcases check_cases rp.cr.graphics with h2 | h2 <;>
    rw [h1, h2] <;>
    simp [except_bind_ok, except_bind_err, h1, h2]

theorem drawIndexedIndirect_spec (rp : RenderPassRecording) (buf : Buffer)
    (offset count stride : Nat)
    (hu : buf.usage &&& INDIRECT_BUFFER ≠ 0)
    (hb : boundsCheckN count 20 stride buf offset = Except.ok ()) :
    (rp.drawIndexedIndirect buf offset count stride
        = Except.ok { rp with cr := { rp.cr with
            cmds := rp.cr.cmds
              ++ [NativeCmd.drawIndexedIndirect buf.handle offset count
                  stride] } }
      ↔ drawReady rp.cr.graphics rp.pass rp.subpass) ∧
    (¬ drawReady rp.cr.graphics rp.pass rp.subpass →
      rp.drawIndexedIndirect buf offset count stride
        = Except.error Error.invalidState) := by
  rw [drawReady_iff]
  unfold RenderPassRecording.drawIndexedIndirect
    CommandRecording.drawIndexedIndirect
  rw [if_neg hu, hb]
  rcases checkRP_cases rp.cr.graphics rp.pass rp.subpass with h1 | h1 <;>
    rcases check_cases rp.cr.graphics with h2 | h2 <;>
    rw [h1, h2] <;>
    simp [except_bind_ok, except_bind_err, h1, h2]

theorem dispatch_spec (rec : CommandRecording) (x y z : Nat) :
    (rec.dispatch x y z = Except.ok { rec with
        cmds := rec.cmds ++ [NativeCmd.dispatch x y z] }
      ↔ dispatchReady rec.compute) ∧
    (¬ dispatchReady rec.compute →
      rec.dispatch x y z = Except.error Error.invalidState) := by
  rw [← check_ok_iff]
  unfold CommandRecording.dispatch
  rcases check_cases rec.compute with h | h <;>
    rw [h] <;>
    simp [except_bind_ok, except_bind_err, h]

theorem dispatchIndirect_spec (rec : CommandRecording) (buf : Buffer)
    (offset : Nat) :
    (rec.dispatchIndirect buf offset = Except.ok { rec with
        cmds := rec.cmds ++ [NativeCmd.dispatchIndirect buf.handle offset] }
      ↔ dispatchReady rec.compute) ∧
    (¬ dispatchReady rec.compute →
      rec.dispatchIndirect buf offset = Except.error Error.invalidState) := by
  rw [← check_ok_iff]
  unfold CommandRecording.dispatchIndirect
  rcases check_cases rec.compute with h | h <;>
    rw [h] <;>
    simp [except_bind_ok, except_bind_err, h]

/-- C2: every draw call fails with `InvalidState` unless a graphics
pipeline is bound, every descriptor-set slot required by its layout is
marked initialized in the binding-state table with a matching layout
sequence, and the pipeline is compatible with the current render pass and
subpass; every dispatch call fails with `InvalidState` unless the
analogous compute conditions (no render-pass compatibility) hold; when
the conditions hold the call succeeds and records the native command
(for the indirect draws, given in-bounds arguments with indirect-capable
buffers). -/
theorem C2_draw_dispatch_state_validation (rp : RenderPassRecording)
    (rec : CommandRecording) (v inst fv fi ic fidx : Nat) (vo : Int)
    (buf : Buffer) (offset count stride x y z : Nat) :
    ((rp.draw v inst fv fi = Except.ok { rp with cr := { rp.cr with
          cmds := rp.cr.cmds ++ [NativeCmd.draw v inst fv fi] } }
        ↔ drawReady rp.cr.graphics rp.pass rp.subpass) ∧
      (¬ drawReady rp.cr.graphics rp.pass rp.subpass →
        rp.draw v inst fv fi = Except.error Error.invalidState)) ∧
    ((rp.drawIndexed ic inst fidx vo fi = Except.ok { rp with
          cr := { rp.cr with cmds := rp.cr.cmds
            ++ [NativeCmd.drawIndexed ic inst fidx vo fi] } }
        ↔ drawReady rp.cr.graphics rp.pass rp.subpass) ∧
      (¬ drawReady rp.cr.graphics rp.pass rp.subpass →
        rp.drawIndexed ic inst fidx vo fi
          = Except.error Error.invalidState)) ∧
    (buf.usage &&& INDIRECT_BUFFER ≠ 0 →
      boundsCheckN count 16 stride buf offset = Except.ok () →
      (rp.drawIndirect buf offset count stride
          = Except.ok { rp with cr := { rp.cr with cmds := rp.cr.cmds
              ++ [NativeCmd.drawIndirect buf.handle offset count stride] } }
        ↔ drawReady rp.cr.graphics rp.pass rp.subpass) ∧
      (¬ drawReady rp.cr.graphics rp.pass rp.subpass →
        rp.drawIndirect buf offset count stride
          = Except.error Error.invalidState)) ∧
    (buf.usage &&& INDIRECT_BUFFER ≠ 0 →
      boundsCheckN count 20 stride buf offset = Except.ok () →
      (rp.drawIndexedIndirect buf offset count stride
          = Except.ok { rp with cr := { rp.cr with cmds := rp.cr.cmds
              ++ [NativeCmd.drawIndexedIndirect buf.handle offset count
                  stride] } }
        ↔ drawReady rp.cr.graphics rp.pass rp.subpass) ∧
      (¬ drawReady rp.cr.graphics rp.pass rp.subpass →
        rp.drawIndexedIndirect buf offset count stride
          = Except.error Error.invalidState)) ∧
    ((rec.dispatch x y z = Except.ok { rec with
          cmds := rec.cmds ++ [NativeCmd.dispatch x y z] }
        ↔ dispatchReady rec.compute) ∧
      (¬ dispatchReady rec.compute →
        rec.dispatch x y z = Except.error Error.invalidState)) ∧
    ((rec.dispatchIndirect buf offset = Except.ok { rec with
          cmds := rec.cmds ++ [NativeCmd.dispatchIndirect buf.handle offset] }
        ↔ dispatchReady rec.compute) ∧
      (¬ dispatchReady rec.compute →
        rec.dispatchIndirect buf offset = Except.error Error.invalidState)) :=
  ⟨draw_spec rp v inst fv fi,
   drawIndexed_spec rp ic inst fidx vo fi,
   fun hu hb => drawIndirect_spec rp buf offset count stride hu hb,
   fun hu hb => drawIndexedIndirect_spec rp buf offset count stride hu hb,
   dispatch_spec rec x y z,
   dispatchIndirect_spec rec buf offset⟩

/-- Witness for C2 at a concrete input: a dispatch on a recording whose
compute bind point is fully ready succeeds and records the native
dispatch. -/
theorem C2_draw_dispatch_state_validation_witness :
    readyCompute.dispatch 1 1 1 = Except.ok { readyCompute with
      cmds := [NativeCmd.dispatch 1 1 1] } := by
  have hready : dispatchReady readyCompute.compute := by
    refine ⟨pipeC, rfl, by decide, fun k hk => ?_⟩
    have hk0 : k = 0 := by
      have : pipeC.layout.layouts.length = 1 := rfl
      omega
    subst hk0
    exact ⟨by decide, by decide⟩
  have h := (C2_draw_dispatch_state_validation
    { cr := readyCompute, pass := 0, subpass := 0 } readyCompute
    0 0 0 0 0 0 0 buf1024 0 0 0 1 1 1).2.2.2.2.1.1.mpr hready
  simpa using h

end Ember

namespace Ember

theorem get_bang_eq_getD (l : List DescriptorSetLayoutBinding) (n : Nat) :
    l.get! n = l.getD n default := by
  induction l generalizing n with
  | nil => cases n <;> rfl
  | cons x xs ih =>
    cases n with
    | zero => rfl
    | succ m => simpa [List.get!, List.getD] using ih m

/-- Total number of descriptor slots declared from binding `b` onward. -/
def countsFrom (bindings : List DescriptorSetLayoutBinding) (b : Nat) : Nat :=
  ((bindings.drop b).map fun x => x.descriptor_count).sum

/-- Flat slot index of the cursor position `(b, e)`: slots of all bindings
before `b`, then `e` within binding `b`. -/
def flatIdx (bindings : List DescriptorSetLayoutBinding) (b e : Nat) : Nat :=
  ((bindings.take b).map fun x => x.descriptor_count).sum + e

theorem countsFrom_step (bindings : List DescriptorSetLayoutBinding) (b : Nat)
    (h : b < bindings.length) :
    countsFrom bindings b
      = (bindings.get ⟨b, h⟩).descriptor_count + countsFrom bindings (b + 1) := by
  unfold countsFrom
  rw [List.drop_eq_getElem_cons h, List.map_cons, List.sum_cons]
  rfl

theorem countsFrom_past (bindings : List DescriptorSetLayoutBinding) (b : Nat)
    (h : bindings.length ≤ b) : countsFrom bindings b = 0 := by
  unfold countsFrom
  rw [List.drop_eq_nil_of_le h]
  rfl

theorem flatIdx_step (bindings : List DescriptorSetLayoutBinding) (b e : Nat)
    (h : b < bindings.length)
    (he : (bindings.get ⟨b, h⟩).descriptor_count ≤ e) :
    flatIdx bindings (b + 1) (e - (bindings.get ⟨b, h⟩).descriptor_count)
      = flatIdx bindings b e := by
  unfold flatIdx
  have hlt : b < (bindings.map fun x => x.descriptor_count).length := by
    simpa using h
  have hsum : ((bindings.take (b + 1)).map fun x => x.descriptor_count).sum
      = ((bindings.take b).map fun x => x.descriptor_count).sum
        + (bindings.get ⟨b, h⟩).descriptor_count := by
    rw [List.map_take, List.map_take]
    have := List.sum_take_succ (bindings.map fun x => x.descriptor_count) b hlt
    rw [this]
    congr 1
    rw [List.getElem_map]
    rfl
  rw [hsum]
  omega

theorem seek_none_iff (bindings : List DescriptorSetLayoutBinding) (b e : Nat) :
    seekBinding bindings b e = none ↔ countsFrom bindings b ≤ e := by
  have H : ∀ d b e, bindings.length - b ≤ d →
      (seekBinding bindings b e = none ↔ countsFrom bindings b ≤ e) := by
    intro d
    induction d with
    | zero =>
      intro b e hle
      rw [seekBinding]
      rw [dif_neg (show ¬ b < bindings.length by omega)]
      rw [countsFrom_past bindings b (by omega)]
      constructor
      · intro _; omega
      · intro _; rfl
    | succ d ih =>
      intro b e hle
      rw [seekBinding]
      split
      · rename_i h
        split
        · rename_i he
          constructor
          · intro hx; cases hx
          · intro hx
            rw [countsFrom_step bindings b h] at hx
            omega
        · rename_i he
          rw [ih (b + 1) (e - (bindings.get ⟨b, h⟩).descriptor_count)
            (by omega)]
          rw [countsFrom_step bindings b h]
          omega
      · rename_i h
        rw [countsFrom_past bindings b (by omega)]
        constructor
        · intro _; omega
        · intro _; rfl
  exact H (bindings.length - b) b e (Nat.le_refl _)

theorem seek_some_spec (bindings : List DescriptorSetLayoutBinding)
    (b e b2 e2 : Nat) (h : seekBinding bindings b e = some (b2, e2)) :
    b ≤ b2 ∧ b2 < bindings.length
      ∧ e2 < (bindings.getD b2 default).descriptor_count
      ∧ flatIdx bindings b2 e2 = flatIdx bindings b e := by
  have H : ∀ d b e, bindings.length - b ≤ d →
      seekBinding bindings b e = some (b2, e2) →
      b ≤ b2 ∧ b2 < bindings.length
        ∧ e2 < (bindings.getD b2 default).descriptor_count
        ∧ flatIdx bindings b2 e2 = flatIdx bindings b e := by
    intro d
    induction d with
    | zero =>
      intro b e hle hx
      rw [seekBinding, dif_neg (show ¬ b < bindings.length by omega)] at hx
      cases hx
    | succ d ih =>
      intro b e hle hx
      rw [seekBinding] at hx
      split at hx
      · rename_i hb
        split at hx
        · rename_i he
          injection hx with h2
          injection h2 with ha hb2
          subst ha
          subst hb2
          refine ⟨Nat.le_refl _, hb, ?_, rfl⟩
          rw [List.getD_eq_getElem _ _ hb]
          simpa [List.get_eq_getElem] using he
        · rename_i he
          have hrec := ih (b + 1)
            (e - (bindings.get ⟨b, hb⟩).descriptor_count) (by omega) hx
          refine ⟨by omega, hrec.2.1, hrec.2.2.1, ?_⟩
          rw [hrec.2.2.2, flatIdx_step bindings b e hb (by omega)]
      · cases hx
  exact H (bindings.length - b) b e (Nat.le_refl _) h

end Ember

namespace Ember

/-- C9: one step of the binding-cursor iterator (`BindingIter::next`)
started at `(binding, element)` with a descriptor type: the cursor's skip
loop advances across binding boundaries preserving the flat slot index
and never lands on a zero-count binding; the step yields out-of-bounds
exactly when the element offset runs past the total slot count of the
remaining bindings; it yields invalid-argument exactly when the landed
binding declares a different descriptor type; otherwise it yields the
landed `(binding, element)` slot and advances the cursor to the next
consecutive flat slot. -/
theorem C9_binding_cursor_iterator (bindings : List DescriptorSetLayoutBinding)
    (ty : DescriptorType) (b e : Nat) :
    ((bindingIterNext bindings ty b e).1 = Except.error Error.outOfBounds
      ↔ countsFrom bindings b ≤ e) ∧
    (∀ b2 e2, seekBinding bindings b e = some (b2, e2) →
      b ≤ b2 ∧ b2 < bindings.length
        ∧ e2 < (bindings.getD b2 default).descriptor_count
        ∧ flatIdx bindings b2 e2 = flatIdx bindings b e) ∧
    ((bindingIterNext bindings ty b e).1 = Except.error Error.invalidArgument
      ↔ ∃ b2 e2, seekBinding bindings b e = some (b2, e2)
          ∧ (bindings.getD b2 default).descriptor_type ≠ ty) ∧
    (∀ b2 e2, seekBinding bindings b e = some (b2, e2) →
      (bindings.getD b2 default).descriptor_type = ty →
      bindingIterNext bindings ty b e = (Except.ok (b2, e2), (b2, e2 + 1))
        ∧ flatIdx bindings b2 (e2 + 1) = flatIdx bindings b e + 1) := by
  refine ⟨?_, fun b2 e2 h => seek_some_spec bindings b e b2 e2 h, ?_, ?_⟩
  · unfold bindingIterNext
    cases hseek : seekBinding bindings b e with
    | none =>
      constructor
      · intro _
        exact (seek_none_iff bindings b e).mp hseek
      · intro _
        rfl
    | some be =>
      obtain ⟨b2, e2⟩ := be
      have hne : ¬ countsFrom bindings b ≤ e := by
        intro hx
        rw [← seek_none_iff bindings b e] at hx
        rw [hseek] at hx
        cases hx
      simp only []
      split
      · simpa using hne
      · simpa using hne
  · unfold bindingIterNext
    cases hseek : seekBinding bindings b e with
    | none =>
      constructor
      · intro hx; cases hx
      · rintro ⟨b2, e2, hs, _⟩
        cases hs
    | some be =>
      obtain ⟨b2, e2⟩ := be
      simp only []
      rw [get_bang_eq_getD]
      split
      · rename_i hty
        constructor
        · intro _
          exact ⟨b2, e2, rfl, hty⟩
        · intro _; rfl
      · rename_i hty
        rw [not_not] at hty
        constructor
        · intro hx; cases hx
        · rintro ⟨b3, e3, hs, hty3⟩
          injection hs with hs
          injection hs with h1 h2
          subst h1
          exact absurd hty hty3
  · intro b2 e2 hseek hty
    unfold bindingIterNext
    rw [hseek]
    simp only []
    rw [get_bang_eq_getD]
    rw [if_neg (by rw [not_not]; exact hty)]
    refine ⟨rfl, ?_⟩
    have h4 := (seek_some_spec bindings b e b2 e2 hseek).2.2.2
    unfold flatIdx at h4 ⊢
    omega

/-- Witness for C9 at a concrete input: starting at binding 0, element 1
of a layout whose binding 0 has one uniform-buffer slot and binding 1 has
two, the cursor crosses into binding 1 and yields slot `(1, 0)`. -/
theorem C9_binding_cursor_iterator_witness :
    bindingIterNext
        [{ descriptor_type := DescriptorType.uniformBuffer,
           descriptor_count := 1, stage_flags := 1, immutable_samplers := [] },
         { descriptor_type := DescriptorType.uniformBuffer,
           descriptor_count := 2, stage_flags := 1, immutable_samplers := [] }]
        DescriptorType.uniformBuffer 0 1
      = (Except.ok (1, 0), (1, 1)) :=
  ((C9_binding_cursor_iterator
    [{ descriptor_type := DescriptorType.uniformBuffer,
       descriptor_count := 1, stage_flags := 1, immutable_samplers := [] },
     { descriptor_type := DescriptorType.uniformBuffer,
       descriptor_count := 2, stage_flags := 1, immutable_samplers := [] }]
    DescriptorType.uniformBuffer 0 1).2.2.2 1 0 (by simp [seekBinding])
    (by decide)).1

end Ember
